import Mathlib

/-!
Shallow embedding of the login endpoint of `FKGoRestfulFramework`
(`src/local/controller/loginController.go`), together with the models of the
standard-library JSON encoding/decoding behaviour that the handler relies on
(`encoding/json` via `c.Read` and `json.Marshal`), and proofs of the spec's
claims about it.
-/

set_option maxHeartbeats 1000000

namespace LoginController

/-- Go struct requestData from loginController.go: the decoded credential pair.
Go struct fields `LoginName` (json tag "loginname") and `Password`
(json tag "password"); the Go zero value of both fields is the empty string. -/
structure requestData where
  LoginName : String := ""
  Password : String := ""
deriving DecidableEq, Repr

/-- Go struct responseData from loginController.go: the success response shape,
json tags "id", "department", "purview", "logname". -/
structure responseData where
  Id : Int
  Department : String
  Purview : String
  Logname : String
deriving DecidableEq, Repr

/-- Go struct DB_Login from loginController.go: the scan target of the query,
db tags "id", "department", "purview", "logname". -/
structure DB_Login where
  Id : Int
  Department : String
  Purview : String
  Logname : String
deriving DecidableEq, Repr

/-- Go struct ErrorResponseData from loginController.go: json tag "error". -/
structure ErrorResponseData where
  Error : String
deriving DecidableEq, Repr

/-- A row of the `loguser` table as laid out in the external store
(spec section 6: columns id, department, purview, logname, logpassword). -/
structure UserRecord where
  id : Int
  department : String
  purview : String
  logname : String
  logpassword : String
deriving DecidableEq, Repr

/- ### Model of Go `encoding/json` marshalling for the two response shapes -/

/-- One character of Go `encoding/json` string encoding: `"` and `\` are
backslash-escaped, `\n`, `\r`, `\t` use their short escapes, other control
characters below 0x20 become `\u00XX`, and (HTML escaping, on by default in
`json.Marshal`) `<`, `>`, `&` become `<`, `>`, `&`. -/
def goJsonEscapeChar (c : Char) : String :=
  if c = '"' then "\\\""
  else if c = '\\' then "\\\\"
  else if c = '\n' then "\\n"
  else if c = '\r' then "\\r"
  else if c = '\t' then "\\t"
  else if c.toNat < 0x20 then
    "\\u00" ++ String.singleton (Nat.digitChar (c.toNat / 16))
            ++ String.singleton (Nat.digitChar (c.toNat % 16))
  else if c = '<' then "\\u003c"
  else if c = '>' then "\\u003e"
  else if c = '&' then "\\u0026"
  else String.singleton c

/-- Go `encoding/json` encoding of a string value, quotes included. -/
def goJsonString (s : String) : String :=
  "\"" ++ String.join (s.data.map goJsonEscapeChar) ++ "\""

/-- The JSON text `json.Marshal` produces for a `responseData` value. -/
def goJsonResponseBody (rp : responseData) : String :=
  "\x7b\"id\":" ++ toString rp.Id
      ++ ",\"department\":" ++ goJsonString rp.Department
      ++ ",\"purview\":" ++ goJsonString rp.Purview
      ++ ",\"logname\":" ++ goJsonString rp.Logname ++ "\x7d"

/-- The JSON text `json.Marshal` produces for an `ErrorResponseData` value. -/
def goJsonErrorBody (rp : ErrorResponseData) : String :=
  "\x7b\"error\":" ++ goJsonString rp.Error ++ "\x7d"

/-- Model of `json.Marshal` applied to a `responseData` value.  Marshalling a
struct whose fields are an `int` and three `string`s cannot fail in Go (errors
arise only for unsupported or cyclic types), so the error alternative is never
produced; it is kept in the type because the Go call site checks it. -/
def goJsonMarshalResponse (rp : responseData) : Except String String :=
  .ok (goJsonResponseBody rp)

/-- Model of `json.Marshal` applied to an `ErrorResponseData` value.  As with
`goJsonMarshalResponse`, marshalling this shape cannot fail in Go. -/
def goJsonMarshalError (rp : ErrorResponseData) : Except String String :=
  .ok (goJsonErrorBody rp)

/- ### Model of Go `encoding/json` unmarshalling into `requestData` -/

/-- A parsed JSON document (the "valid structured data" of the spec). -/
inductive Json where
  | null : Json
  | bool (b : Bool) : Json
  | num (n : Int) : Json
  | str (s : String) : Json
  | arr (elems : List Json) : Json
  | obj (fields : List (String × Json)) : Json

/-- ASCII lower-casing of one character. -/
def asciiLower (c : Char) : Char :=
  if 'A' ≤ c ∧ c ≤ 'Z' then Char.ofNat (c.toNat + 32) else c

/-- ASCII-case-insensitive key match, as Go `encoding/json` uses to match an
object key against a struct field's json tag (tags here are lower-case). -/
def keyFold (k tag : String) : Bool :=
  k.data.map asciiLower == tag.data

/-- Apply one object member to the struct being decoded, as Go
`encoding/json` does: a key matching the "loginname" tag sets `LoginName`
from a JSON string (a JSON null leaves the field unchanged; any other value
is a type error), likewise "password"; any other key is ignored. -/
def applyField (rd : requestData) (k : String) (v : Json) : Except String requestData :=
  if keyFold k "loginname" then
    match v with
    | .str s => .ok { rd with LoginName := s }
    | .null => .ok rd
    | _ => .error "json: cannot unmarshal value into field loginname of type string"
  else if keyFold k "password" then
    match v with
    | .str s => .ok { rd with Password := s }
    | .null => .ok rd
    | _ => .error "json: cannot unmarshal value into field password of type string"
  else
    .ok rd

/-- Decode the members of a JSON object in order (later duplicates win,
as in Go). -/
def decodeFields (rd : requestData) : List (String × Json) → Except String requestData
  | [] => .ok rd
  | (k, v) :: rest => (applyField rd k v).bind (fun rd2 => decodeFields rd2 rest)

/-- Model of `c.Read(&rd)` of ozzo-routing with the JSON content negotiator:
`json.Unmarshal` of the request body into `requestData`.  A JSON object is
decoded field by field starting from the zero value; a top-level `null`
leaves the zero value; any other top-level value is a type error. -/
def decodeRequestData : Json → Except String requestData
  | .obj fields => decodeFields {} fields
  | .null => .ok {}
  | _ => .error "json: cannot unmarshal value into Go value of type requestData"

/- ### Model of the dbx query built by the handler -/

/-- The shape of the single read query the handler builds with
`db.DB().Select(...).From(...).Where(dbx.HashExp{...}).OrderBy(...)`:
selected columns, source table, conjunction of column-equals-value filters,
ORDER BY columns (ascending), and the row limit (none — no `Limit` call). -/
structure SelectQuery where
  selectCols : List String
  fromTable : String
  whereEq : List (String × String)
  orderBy : List String
  limit : Option Nat
deriving DecidableEq, Repr

/-- The query built in loginHandler lines 47-50:
`Select("id","department","purview","logname").From("loguser").
Where(dbx.HashExp{"logname": rd.LoginName, "logpassword": rd.Password}).
OrderBy("id")`. -/
def loginQuery (rd : requestData) : SelectQuery :=
  { selectCols := ["id", "department", "purview", "logname"]
    fromTable := "loguser"
    whereEq := [("logname", rd.LoginName), ("logpassword", rd.Password)]
    orderBy := ["id"]
    limit := none }

/-- Value of a string-typed column of a `loguser` row, looked up by column
name (the `id` column is integer-typed, so it has no string value). -/
def columnValue (u : UserRecord) : String → Option String
  | "department" => some u.department
  | "purview" => some u.purview
  | "logname" => some u.logname
  | "logpassword" => some u.logpassword
  | _ => none

/-- A row satisfies a `HashExp` filter when every column-equals-value pair
holds of it. -/
def rowSatisfies (u : UserRecord) (q : SelectQuery) : Bool :=
  q.whereEq.all (fun kv => columnValue u kv.1 == some kv.2)

/-- The scan of a selected `loguser` row into `DB_Login` (db tags id,
department, purview, logname). -/
def projectRow (u : UserRecord) : DB_Login :=
  { Id := u.id, Department := u.department, Purview := u.purview, Logname := u.logname }

/-- Model of ORDER BY: this handler only ever orders by ascending id. -/
def sortRows (q : SelectQuery) (rows : List UserRecord) : List UserRecord :=
  if q.orderBy = ["id"] then rows.mergeSort (fun a b => decide (a.id ≤ b.id)) else rows

/-- Model of LIMIT: a limit of `none` fetches every row. -/
def applyLimit (q : SelectQuery) (rows : List UserRecord) : List UserRecord :=
  match q.limit with
  | none => rows
  | some n => rows.take n

/-- Execution of a `SelectQuery` against the `loguser` table: filter by the
`WHERE` conjunction, sort, apply the limit, and scan each row into
`DB_Login`. -/
def execQuery (table : List UserRecord) (q : SelectQuery) : List DB_Login :=
  (applyLimit q (sortRows q (table.filter (fun u => rowSatisfies u q)))).map projectRow

/-- A database handle over a concrete table whose query execution always
succeeds (the non-failing oracle used to state the data-path claims). -/
def dbAll (table : List UserRecord) : SelectQuery → Except String (List DB_Login) :=
  fun q => .ok (execQuery table q)

/- ### The handler -/

/-- The calls the handler makes on its injected logger, in order. -/
inductive LogEntry where
  | invalidRequest (msg : String) : LogEntry
  | dbQueryError (msg : String) : LogEntry
  | jsonError (msg : String) : LogEntry
deriving DecidableEq, Repr

/-- What the handler returned to the routing layer: a propagated error
(decode / query / marshal), or a body written through `c.Write` with the
transport status the framework applies to a plain write. -/
inductive HandlerOutcome where
  | decodeFailed (err : String) : HandlerOutcome
  | queryFailed (err : String) : HandlerOutcome
  | encodeFailed (err : String) : HandlerOutcome
  | wrote (status : Nat) (body : String) : HandlerOutcome
deriving DecidableEq, Repr

/-- Predicate that is `true` exactly on the `encodeFailed` outcome. -/
def HandlerOutcome.isEncodeFailed : HandlerOutcome → Bool
  | .encodeFailed _ => true
  | _ => false

/-- Observable effects of one invocation of the handler closure: the outcome,
the queries issued to the database handle (in order), and the logger calls
made (in order). -/
structure HandlerResult where
  outcome : HandlerOutcome
  queries : List SelectQuery
  logs : List LogEntry
deriving DecidableEq, Repr

/-- The transport status of a body written with `c.Write` and no explicit
status: ozzo-routing writes through the response without calling
`WriteHeader`, so `net/http` applies its implicit 200 OK.  Both the success
body and the credential-mismatch body go through this same path. -/
def defaultWriteStatus : Nat := 200

/-- The string `fmt` produces for a nil error: the zero-rows branch of the
handler logs `"database query error: %v"` with the (necessarily nil) `err`
left over from the query call. -/
def nilErrorText : String := "<nil>"

/-- Function loginHandler (loginController.go lines 39-84), as the closure's body:
given the result of `c.Read` and the database handle, decode; on decode
error log and return it; otherwise issue the one query; on query error log
and return it; with zero rows marshal and write the fixed error body; with
one or more rows marshal and write the projection of `users[0]`.  The Go
guard `usersNum <= 0` is the `[]` case of the match, since
`len(users) <= 0` iff the slice is empty. -/
def loginHandler (readOutcome : Except String requestData)
    (dbq : SelectQuery → Except String (List DB_Login)) : HandlerResult :=
  match readOutcome with
  | .error err => ⟨.decodeFailed err, [], [.invalidRequest err]⟩
  | .ok rd =>
    let q := loginQuery rd
    match dbq q with
    | .error err => ⟨.queryFailed err, [q], [.dbQueryError err]⟩
    | .ok users =>
      match users with
      | [] =>
        match goJsonMarshalError { Error := "Loginname or password not correct." } with
        | .error e => ⟨.encodeFailed e, [q], [.dbQueryError nilErrorText, .jsonError e]⟩
        | .ok b => ⟨.wrote defaultWriteStatus b, [q], [.dbQueryError nilErrorText]⟩
      | u :: _ =>
        let rp : responseData :=
          { Id := u.Id, Department := u.Department, Purview := u.Purview, Logname := u.Logname }
        match goJsonMarshalResponse rp with
        | .error e => ⟨.encodeFailed e, [q], [.jsonError e]⟩
        | .ok b => ⟨.wrote defaultWriteStatus b, [q], []⟩

/-- The whole request path for a request whose raw body parsed (or failed to
parse) as JSON, against a store with the given contents and a healthy
database: decode, then run the handler. -/
def handleLogin (parsed : Except String Json) (table : List UserRecord) : HandlerResult :=
  loginHandler (parsed.bind decodeRequestData) (dbAll table)

/-- Does this credential pair match this stored row?  The `WHERE` clause of
`loginQuery` compares the `logname` and `logpassword` columns for equality
with the two credential fields. -/
def credMatches (rd : requestData) (u : UserRecord) : Bool :=
  u.logname == rd.LoginName && u.logpassword == rd.Password

theorem rowSatisfies_loginQuery (rd : requestData) (u : UserRecord) :
    rowSatisfies u (loginQuery rd) = credMatches rd u := by
  simp [rowSatisfies, loginQuery, credMatches, columnValue, List.all]

/-- The credential-mismatch body, exactly as marshalled. -/
def loginFailedBody : String := "\x7b\"error\":\"Loginname or password not correct.\"\x7d"

theorem goJsonErrorBody_loginFailed :
    goJsonErrorBody { Error := "Loginname or password not correct." } = loginFailedBody := by
  rfl

/-- The `responseData` the handler builds from a matching row: `users[0]`'s
four scanned columns copied field by field (loginController.go lines 72-76). -/
def projectionResponse (u : UserRecord) : responseData :=
  { Id := u.id, Department := u.department, Purview := u.purview, Logname := u.logname }

theorem projectionResponse_projectRow (u : UserRecord) :
    projectionResponse u
      = { Id := (projectRow u).Id, Department := (projectRow u).Department,
          Purview := (projectRow u).Purview, Logname := (projectRow u).Logname } := by
  rfl

/- ### Shared lemmas about the data path -/

theorem filter_rowSatisfies_loginQuery (rd : requestData) (table : List UserRecord) :
    table.filter (fun u => rowSatisfies u (loginQuery rd)) = table.filter (credMatches rd) := by
  apply List.filter_congr
  intro u _
  exact rowSatisfies_loginQuery rd u

theorem execQuery_loginQuery (rd : requestData) (table : List UserRecord) :
    execQuery table (loginQuery rd)
      = ((table.filter (credMatches rd)).mergeSort
          (fun a b => decide (a.id ≤ b.id))).map projectRow := by
  unfold execQuery applyLimit sortRows
  rw [filter_rowSatisfies_loginQuery]
  rfl

/-- Core of the mismatch path: when no row of the table matches the
credential, the handler issues its one query, gets zero rows, and writes the
fixed error body (logging through the quirky nil-error log call). -/
theorem loginHandler_no_match_core (rd : requestData) (table : List UserRecord)
    (h : ∀ u ∈ table, credMatches rd u = false) :
    loginHandler (.ok rd) (dbAll table)
      = ⟨.wrote defaultWriteStatus loginFailedBody, [loginQuery rd],
         [.dbQueryError nilErrorText]⟩ := by
  have hfil : table.filter (credMatches rd) = [] := by
    rw [List.filter_eq_nil_iff]
    intro u hu
    simp [h u hu]
  have hexec : execQuery table (loginQuery rd) = [] := by
    rw [execQuery_loginQuery, hfil]
    simp
  simp only [loginHandler, dbAll, hexec, goJsonMarshalError, goJsonErrorBody_loginFailed]

/-- Core of the success path: when the sorted match list starts with `u`,
the handler writes the marshalled projection of `u` and logs nothing. -/
theorem loginHandler_first_match_core (rd : requestData) (table : List UserRecord)
    (u : UserRecord) (rest : List UserRecord)
    (h : (table.filter (credMatches rd)).mergeSort (fun a b => decide (a.id ≤ b.id))
          = u :: rest) :
    loginHandler (.ok rd) (dbAll table)
      = ⟨.wrote defaultWriteStatus (goJsonResponseBody (projectionResponse u)),
         [loginQuery rd], []⟩ := by
  have hexec : execQuery table (loginQuery rd)
      = projectRow u :: rest.map projectRow := by
    rw [execQuery_loginQuery, h]
    rfl
  simp only [loginHandler, dbAll, hexec, goJsonMarshalResponse]
  rfl

/-- Head of the id-sorted list: a member strictly below every other member
in id is the first element after sorting. -/
theorem mergeSort_head_min (l : List UserRecord) (u : UserRecord)
    (hmem : u ∈ l) (hmin : ∀ v ∈ l, v ≠ u → u.id < v.id) :
    ∃ rest, l.mergeSort (fun a b => decide (a.id ≤ b.id)) = u :: rest := by
  cases hS : l.mergeSort (fun a b => decide (a.id ≤ b.id)) with
  | nil =>
    exfalso
    have hu : u ∈ l.mergeSort (fun a b => decide (a.id ≤ b.id)) :=
      List.mem_mergeSort.mpr hmem
    rw [hS] at hu
    exact List.not_mem_nil u hu
  | cons u0 rest =>
    have hsorted : (l.mergeSort (fun a b => decide (a.id ≤ b.id))).Pairwise
        (fun a b => decide (a.id ≤ b.id)) := by
      apply List.sorted_mergeSort
      · intro a b c hab hbc
        simp only [decide_eq_true_eq] at *
        omega
      · intro a b
        simp only [Bool.or_eq_true, decide_eq_true_eq]
        omega
    rw [hS] at hsorted
    have hpair := List.pairwise_cons.mp hsorted
    have hu0mem : u0 ∈ l := by
      have : u0 ∈ l.mergeSort (fun a b => decide (a.id ≤ b.id)) := by
        rw [hS]
        exact List.mem_cons_self u0 rest
      exact List.mem_mergeSort.mp this
    have humem : u ∈ u0 :: rest := by
      rw [← hS]
      exact List.mem_mergeSort.mpr hmem
    rcases List.mem_cons.mp humem with h | h
    · exact ⟨rest, by rw [← h]⟩
    · by_cases he : u0 = u
      · exact ⟨rest, by rw [he]⟩
      · exfalso
        have h1 := hpair.1 u h
        simp only [decide_eq_true_eq] at h1
        have h2 : u.id < u0.id := hmin u0 hu0mem he
        omega

/- ### Characterization of the decode step -/

/-- The string value the last type-correct occurrence of a field leaves in
the struct: fold the object members left to right, replacing the accumulator
whenever a key matches the tag and carries a JSON string (nulls and other
values leave it unchanged, as in the decoder). -/
def lastStrField (tag dflt : String) (fields : List (String × Json)) : String :=
  fields.foldl
    (fun acc kv =>
      if keyFold kv.1 tag then
        match kv.2 with
        | .str s => s
        | _ => acc
      else acc)
    dflt

/-- A JSON value that unmarshals into a Go `string` field without a type
error: a string, or null (which leaves the field untouched). -/
def fieldWellTyped : Json → Bool
  | .str _ => true
  | .null => true
  | _ => false

/-- Every member whose key matches one of the two struct tags carries a
string or null. -/
def objWellTyped (fields : List (String × Json)) : Bool :=
  fields.all (fun kv =>
    !(keyFold kv.1 "loginname" || keyFold kv.1 "password") || fieldWellTyped kv.2)

theorem keyFold_eq_tag {k a b : String} (ha : keyFold k a = true)
    (hb : keyFold k b = true) : a = b := by
  simp only [keyFold, beq_iff_eq] at ha hb
  have : a.data = b.data := by rw [← ha, ← hb]
  cases a
  cases b
  exact congrArg String.mk this

theorem keyFold_login_not_password {k : String} (ha : keyFold k "loginname" = true) :
    keyFold k "password" = false := by
  cases h : keyFold k "password" with
  | false => rfl
  | true => exact absurd (keyFold_eq_tag ha h) (by decide)

theorem keyFold_password_not_login {k : String} (ha : keyFold k "password" = true) :
    keyFold k "loginname" = false := by
  cases h : keyFold k "loginname" with
  | false => rfl
  | true => exact absurd (keyFold_eq_tag ha h) (by decide)

theorem lastStrField_cons (tag dflt k : String) (v : Json)
    (rest : List (String × Json)) :
    lastStrField tag dflt ((k, v) :: rest)
      = lastStrField tag
          (if keyFold k tag then
            match v with
            | .str s => s
            | _ => dflt
          else dflt) rest := by
  rfl

/-- Decoding a well-typed object from any partial struct value lands on the
fold of its members over that value, field by field. -/
theorem decodeFields_welltyped (fields : List (String × Json)) :
    ∀ rd : requestData, objWellTyped fields = true →
      decodeFields rd fields
        = .ok { LoginName := lastStrField "loginname" rd.LoginName fields,
                Password := lastStrField "password" rd.Password fields } := by
  induction fields with
  | nil =>
    intro rd _
    rfl
  | cons kv rest ih =>
    intro rd hwt
    obtain ⟨k, v⟩ := kv
    simp only [objWellTyped, List.all_cons, Bool.and_eq_true] at hwt
    obtain ⟨hhead, htail⟩ := hwt
    rw [lastStrField_cons, lastStrField_cons]
    by_cases hl : keyFold k "loginname" = true
    · have hp := keyFold_login_not_password hl
      have hv : fieldWellTyped v = true := by
        simp only [hl, Bool.true_or, Bool.not_true, Bool.false_or] at hhead
        exact hhead
      simp only [hl, hp, if_true, if_false]
      cases v with
      | str s =>
        simp only [decodeFields, applyField, hl, if_true]
        exact ih { rd with LoginName := s } htail
      | null =>
        simp only [decodeFields, applyField, hl, if_true]
        exact ih rd htail
      | bool b => simp [fieldWellTyped] at hv
      | num n => simp [fieldWellTyped] at hv
      | arr elems => simp [fieldWellTyped] at hv
      | obj fields2 => simp [fieldWellTyped] at hv
    · have hl' : keyFold k "loginname" = false := by
        cases h : keyFold k "loginname" with
        | false => rfl
        | true => exact absurd h hl
      by_cases hq : keyFold k "password" = true
      · have hv : fieldWellTyped v = true := by
          simp only [hq, Bool.or_true, Bool.not_true, Bool.false_or] at hhead
          exact hhead
        simp only [hl', hq, if_true, if_false]
        cases v with
        | str s =>
          simp only [decodeFields, applyField, hl', hq, if_true, Bool.false_eq_true,
            if_false]
          exact ih { rd with Password := s } htail
        | null =>
          simp only [decodeFields, applyField, hl', hq, if_true, Bool.false_eq_true,
            if_false]
          exact ih rd htail
        | bool b => simp [fieldWellTyped] at hv
        | num n => simp [fieldWellTyped] at hv
        | arr elems => simp [fieldWellTyped] at hv
        | obj fields2 => simp [fieldWellTyped] at hv
      · have hq' : keyFold k "password" = false := by
          cases h : keyFold k "password" with
          | false => rfl
          | true => exact absurd h hq
        simp only [hl', hq', if_false]
        simp only [decodeFields, applyField, hl', hq', Bool.false_eq_true, if_false]
        exact ih rd htail

/- ### Fixture rows (the concrete scenario of spec section 8.6 and variants) -/

/-- The stored row of the spec's concrete scenario. -/
def aliceRow : UserRecord :=
  { id := 1, department := "eng", purview := "admin", logname := "alice",
    logpassword := "secret" }

/-- A second row with the same credential pair and a larger id. -/
def aliceRow2 : UserRecord :=
  { id := 2, department := "ops", purview := "user", logname := "alice",
    logpassword := "secret" }

/- ### The claims -/

/-- C1: for every well-formed login request whose credential pair matches no
stored UserRecord, the handler writes exactly the JSON body
`{"error":"Loginname or password not correct."}` and delivers it with
`defaultWriteStatus` — the very status the success branch writes with — which
lies in the 2xx success range, not an error status. -/
theorem claim1_no_match_mismatch_body (rd : requestData) (table : List UserRecord)
    (h : ∀ u ∈ table, credMatches rd u = false) :
    (loginHandler (.ok rd) (dbAll table)).outcome
        = .wrote defaultWriteStatus loginFailedBody
      ∧ loginFailedBody = "\x7b\"error\":\"Loginname or password not correct.\"\x7d"
      ∧ 200 ≤ defaultWriteStatus ∧ defaultWriteStatus < 300 := by
  refine ⟨?_, rfl, by decide, by decide⟩
  rw [loginHandler_no_match_core rd table h]

/-- Witness for C1 at the spec's fixture: the stored alice row, a request
with the right name and the wrong password. -/
theorem claim1_witness :
    (∀ u ∈ [aliceRow], credMatches { LoginName := "alice", Password := "wrong" } u = false)
    ∧ ((loginHandler (.ok { LoginName := "alice", Password := "wrong" })
          (dbAll [aliceRow])).outcome
        = .wrote defaultWriteStatus loginFailedBody
      ∧ loginFailedBody = "\x7b\"error\":\"Loginname or password not correct.\"\x7d"
      ∧ 200 ≤ defaultWriteStatus ∧ defaultWriteStatus < 300) :=
  ⟨by decide, claim1_no_match_mismatch_body _ [aliceRow] (by decide)⟩

/-- C2: for every Credential matching exactly one stored UserRecord, the
response body is the `json.Marshal` serialization of that record's
(id, department, purview, login_name) projection under the JSON field names
id, department, purview, logname. -/
theorem claim2_unique_match_projection (rd : requestData) (table : List UserRecord)
    (u : UserRecord) (h : table.filter (credMatches rd) = [u]) :
    (loginHandler (.ok rd) (dbAll table)).outcome
      = .wrote defaultWriteStatus (goJsonResponseBody (projectionResponse u)) := by
  have hS : (table.filter (credMatches rd)).mergeSort (fun a b => decide (a.id ≤ b.id))
      = u :: [] := by
    rw [h]
    simp
  rw [loginHandler_first_match_core rd table u [] hS]

/-- Witness for C2 at the spec's concrete scenario: alice/secret against the
single alice row yields the projected JSON body of spec section 8.6. -/
theorem claim2_witness :
    ([aliceRow].filter (credMatches { LoginName := "alice", Password := "secret" })
        = [aliceRow])
    ∧ (loginHandler (.ok { LoginName := "alice", Password := "secret" })
          (dbAll [aliceRow])).outcome
        = .wrote defaultWriteStatus (goJsonResponseBody (projectionResponse aliceRow))
    ∧ goJsonResponseBody (projectionResponse aliceRow)
        = "\x7b\"id\":1,\"department\":\"eng\",\"purview\":\"admin\",\"logname\":\"alice\"\x7d" :=
  ⟨by decide, claim2_unique_match_projection _ [aliceRow] aliceRow (by decide), by rfl⟩

/-- C3: for a Credential matched by several stored rows, the response is the
projection of the matching row with the smallest id, every other matching
row is discarded, and no warning is emitted (the success path makes no
logger call at all). -/
theorem claim3_multi_match_lowest_id (rd : requestData) (table : List UserRecord)
    (u : UserRecord) (hmem : u ∈ table) (hmatch : credMatches rd u = true)
    (hmin : ∀ v ∈ table, credMatches rd v = true → v ≠ u → u.id < v.id) :
    (loginHandler (.ok rd) (dbAll table)).outcome
        = .wrote defaultWriteStatus (goJsonResponseBody (projectionResponse u))
      ∧ (loginHandler (.ok rd) (dbAll table)).logs = [] := by
  have hmemf : u ∈ table.filter (credMatches rd) := List.mem_filter.mpr ⟨hmem, hmatch⟩
  have hminf : ∀ v ∈ table.filter (credMatches rd), v ≠ u → u.id < v.id := by
    intro v hv hne
    have hv' := List.mem_filter.mp hv
    exact hmin v hv'.1 hv'.2 hne
  obtain ⟨rest, hS⟩ := mergeSort_head_min _ u hmemf hminf
  rw [loginHandler_first_match_core rd table u rest hS]
  exact ⟨rfl, rfl⟩

/-- Witness for C3: two stored rows share the alice/secret credential; the
row with id 1 wins over the row with id 2 and nothing is logged. -/
theorem claim3_witness :
    (aliceRow ∈ [aliceRow, aliceRow2]
      ∧ credMatches { LoginName := "alice", Password := "secret" } aliceRow = true
      ∧ ∀ v ∈ [aliceRow, aliceRow2],
          credMatches { LoginName := "alice", Password := "secret" } v = true →
            v ≠ aliceRow → aliceRow.id < v.id)
    ∧ ((loginHandler (.ok { LoginName := "alice", Password := "secret" })
          (dbAll [aliceRow, aliceRow2])).outcome
        = .wrote defaultWriteStatus (goJsonResponseBody (projectionResponse aliceRow))
      ∧ (loginHandler (.ok { LoginName := "alice", Password := "secret" })
          (dbAll [aliceRow, aliceRow2])).logs = []) :=
  ⟨⟨by decide, by decide, by decide⟩,
    claim3_multi_match_lowest_id _ [aliceRow, aliceRow2] aliceRow
      (by decide) (by decide) (by decide)⟩

/-- C4: when the body cannot be decoded into the Credential shape, the
handler propagates the decode error and issues no query at all — whatever
database handle is plugged in, its query list is empty, so the lookup
service is never reached. -/
theorem claim4_decode_error_no_query (err : String)
    (dbq : SelectQuery → Except String (List DB_Login)) :
    loginHandler (.error err) dbq
      = ⟨.decodeFailed err, [], [.invalidRequest err]⟩ :=
  rfl

/-- C5: when query execution fails, the handler writes no JSON body at all:
the invocation's whole observable effect is the propagated query error, the
single query it had issued (no retry), and the one error log. -/
theorem claim5_query_error_no_body (rd : requestData) (err : String)
    (dbq : SelectQuery → Except String (List DB_Login))
    (h : dbq (loginQuery rd) = .error err) :
    loginHandler (.ok rd) dbq
      = ⟨.queryFailed err, [loginQuery rd], [.dbQueryError err]⟩ := by
  simp only [loginHandler, h]

/-- Witness for C5 with a database handle that always fails. -/
theorem claim5_witness :
    ((fun _ => .error "connection refused" :
        SelectQuery → Except String (List DB_Login)) (loginQuery {})
      = .error "connection refused")
    ∧ loginHandler (.ok {}) (fun _ => .error "connection refused")
        = ⟨.queryFailed "connection refused", [loginQuery {}],
           [.dbQueryError "connection refused"]⟩ :=
  ⟨rfl, claim5_query_error_no_body {} "connection refused" _ rfl⟩

/-- C6: every successfully decoded Credential leads to exactly one query,
and that query selects exactly the columns id, department, purview, logname
from the loguser table, filters by logname-equals-login-name and
logpassword-equals-password, orders ascending by id, and carries no row
limit — its execution returns every matching row of the table. -/
theorem claim6_query_contract (rd : requestData)
    (dbq : SelectQuery → Except String (List DB_Login)) :
    (loginHandler (.ok rd) dbq).queries = [loginQuery rd]
      ∧ (loginQuery rd).selectCols = ["id", "department", "purview", "logname"]
      ∧ (loginQuery rd).fromTable = "loguser"
      ∧ (loginQuery rd).whereEq = [("logname", rd.LoginName), ("logpassword", rd.Password)]
      ∧ (loginQuery rd).orderBy = ["id"]
      ∧ (loginQuery rd).limit = none
      ∧ ∀ table : List UserRecord,
          (execQuery table (loginQuery rd)).length
            = (table.filter (credMatches rd)).length := by
  refine ⟨?_, rfl, rfl, rfl, rfl, rfl, ?_⟩
  · simp only [loginHandler]
    cases hdb : dbq (loginQuery rd) with
    | error e => simp [hdb]
    | ok users => cases users <;> simp [hdb, goJsonMarshalError, goJsonMarshalResponse]
  · intro table
    rw [execQuery_loginQuery]
    simp

/-- C9: the response-serialization error branches are dead: whatever the
decode and query outcomes, the handler's outcome is never `encodeFailed`,
because `json.Marshal` cannot fail on either fixed response shape. -/
theorem claim9_encode_unreachable (readOutcome : Except String requestData)
    (dbq : SelectQuery → Except String (List DB_Login)) :
    ((loginHandler readOutcome dbq).outcome).isEncodeFailed = false := by
  rcases readOutcome with e | rd
  · rfl
  · rcases hdb : dbq (loginQuery rd) with e | users
    · simp [loginHandler, hdb, HandlerOutcome.isEncodeFailed]
    · rcases users with _ | ⟨u, rest⟩ <;>
        simp [loginHandler, hdb, HandlerOutcome.isEncodeFailed,
          goJsonMarshalError, goJsonMarshalResponse]

/-- C10: the handler is deterministic — two invocations with equal parsed
bodies against equal store contents produce equal results (outcome, queries
and logs alike); the model reads no other state and carries none between
requests. -/
theorem claim10_deterministic (p1 p2 : Except String Json)
    (t1 t2 : List UserRecord) (hp : p1 = p2) (ht : t1 = t2) :
    handleLogin p1 t1 = handleLogin p2 t2 := by
  rw [hp, ht]

/-- Witness for C10 at a concrete request and store. -/
theorem claim10_witness :
    handleLogin (.ok (Json.obj [("loginname", Json.str "alice"),
        ("password", Json.str "secret")])) [aliceRow]
      = handleLogin (.ok (Json.obj [("loginname", Json.str "alice"),
          ("password", Json.str "secret")])) [aliceRow] :=
  claim10_deterministic _ _ _ _ rfl rfl

/-- Counterexample to C7 as stated: a JSON array is valid structured data,
yet the decoder produces a decode error, not a Credential. -/
theorem claim7_counterexample :
    decodeRequestData (Json.arr [])
      = .error "json: cannot unmarshal value into Go value of type requestData" :=
  rfl

/-- C7 (amended): for every request body that is a JSON object in which each
member keyed (case-insensitively) to one of the two named fields carries a
string or null, decoding produces a Credential where unknown fields are
ignored and a named field with no string occurrence keeps the empty-string
default — the result is exactly the left-to-right fold of the two named
fields, so members under any other key never influence it. -/
theorem claim7_decode_welltyped (fields : List (String × Json))
    (hwt : objWellTyped fields = true) :
    decodeRequestData (.obj fields)
      = .ok { LoginName := lastStrField "loginname" "" fields,
              Password := lastStrField "password" "" fields } :=
  decodeFields_welltyped fields {} hwt

/-- Witness for C7 at a body with an unknown field and no loginname field:
the unknown member is ignored and the missing loginname defaults to "". -/
theorem claim7_witness :
    (objWellTyped [("foo", Json.num 3), ("password", Json.str "p")] = true)
    ∧ decodeRequestData
        (.obj [("foo", Json.num 3), ("password", Json.str "p")])
      = .ok { LoginName := "", Password := "p" } :=
  ⟨by decide,
    claim7_decode_welltyped [("foo", Json.num 3), ("password", Json.str "p")]
      (by decide)⟩

/-- A stored row whose logname and logpassword are both empty strings. -/
def emptyCredRow : UserRecord :=
  { id := 1, department := "d", purview := "p", logname := "", logpassword := "" }

/-- Counterexample to C8 as stated: empty credentials do authenticate when
the store itself holds a row whose logname and logpassword are empty — the
response is that row's projection, not the mismatch body, so the mismatch
outcome does not hold "regardless of the store's contents". -/
theorem claim8_counterexample :
    (loginHandler (.ok {}) (dbAll [emptyCredRow])).outcome
      ≠ .wrote defaultWriteStatus loginFailedBody := by
  have hS : (([emptyCredRow] : List UserRecord).filter (credMatches {})).mergeSort
          (fun a b => decide (a.id ≤ b.id))
      = emptyCredRow :: [] := by
    have h : ([emptyCredRow] : List UserRecord).filter (credMatches {})
        = [emptyCredRow] := by decide
    rw [h]
    simp
  rw [loginHandler_first_match_core {} _ _ [] hS]
  decide

/-- C8 (amended): for every Credential in which login_name or password is
the empty string, against any store none of whose rows has an empty logname
or logpassword, the lookup matches no row and the response is the
credential-mismatch body. -/
theorem claim8_empty_credentials_mismatch (rd : requestData)
    (table : List UserRecord)
    (hempty : rd.LoginName = "" ∨ rd.Password = "")
    (hstore : ∀ u ∈ table, u.logname ≠ "" ∧ u.logpassword ≠ "") :
    (loginHandler (.ok rd) (dbAll table)).outcome
      = .wrote defaultWriteStatus loginFailedBody := by
  have h : ∀ u ∈ table, credMatches rd u = false := by
    intro u hu
    obtain ⟨h1, h2⟩ := hstore u hu
    rcases hempty with he | he
    · simp [credMatches, he, h1]
    · simp [credMatches, he, h2]
  rw [loginHandler_no_match_core rd table h]

/-- Witness for C8 (amended): an empty login name against the alice row. -/
theorem claim8_witness :
    (({ LoginName := "", Password := "x" } : requestData).LoginName = ""
        ∨ ({ LoginName := "", Password := "x" } : requestData).Password = "")
    ∧ (∀ u ∈ [aliceRow], u.logname ≠ "" ∧ u.logpassword ≠ "")
    ∧ (loginHandler (.ok { LoginName := "", Password := "x" })
          (dbAll [aliceRow])).outcome
        = .wrote defaultWriteStatus loginFailedBody :=
  ⟨Or.inl rfl, by decide,
    claim8_empty_credentials_mismatch { LoginName := "", Password := "x" }
      [aliceRow] (Or.inl rfl) (by decide)⟩

end LoginController
